import Mathlib

/-!
Verification of the NEVR voxel raytracing renderer (shallow embedding).

The definitions below are translated from the Rust sources:
  * `src/engine/geometry.rs` — the Geometry Store (`GeometryManager`,
    `prepare_geometry`, `prepare_materials`);
  * `src/engine/blas.rs` — the BLAS manager and its compaction tick
    (`BlasManager`, `compact_blas`);
  * `src/lib.rs` — the binding assembler (`prepare_bindings`) and the
    plugin startup feature check (`NEVRPlugin::finish`).

Modelling conventions:
  * `f32` scalars become `ℚ` (the claims under verification are structural:
    idempotence, append-only growth, gating, control flow — none depends on
    floating-point rounding);
  * asset ids (`AssetId<VoxelType>`, `AssetId<VoxelMaterial>`) become `Nat`;
  * `HashMap` becomes an association list with `lookupA`/`insertA`
    (insert-replaces semantics, as for the Rust `HashMap::insert`);
  * a `BufferVec` keeps its CPU-side `data` plus the GPU-side snapshot
    `buffer`, which `write_buffer` refreshes only for non-empty data
    (mirroring bevy's `BufferVec::write_buffer`, which returns early on an
    empty vector, leaving `buffer()` equal to `None`);
  * a Rust `unwrap` on a value that can be absent is modelled by an
    `Option`-returning function (`none` = the call aborts);
  * GPU-side asynchronous compaction readiness (`Blas::ready_for_compaction`)
    is an oracle parameter `ready : Nat → Bool`, as suggested by the design
    notes ("the state machine can be driven with a fake ready oracle").
-/

namespace NEVR

/-- Association-list lookup, standing in for `HashMap::get`. -/
def lookupA {β : Type} : List (Nat × β) → Nat → Option β
  | [], _ => none
  | (k, v) :: rest, k2 => if k = k2 then some v else lookupA rest k2

/-- Association-list insert with replace semantics, standing in for
`HashMap::insert`. -/
def insertA {β : Type} (m : List (Nat × β)) (k : Nat) (v : β) : List (Nat × β) :=
  (k, v) :: m.filter (fun p => p.1 != k)

/-- Association-list removal, standing in for `HashMap::remove`. -/
def removeA {β : Type} (m : List (Nat × β)) (k : Nat) : List (Nat × β) :=
  m.filter (fun p => p.1 != k)

/-- The canonical unit-cube vertex list (`VERTICES` in `geometry.rs`):
24 vertices, 4 per face, stored as 72 flat floats. -/
def VERTICES : List ℚ :=
  [ -- LEFT
    1, 1, 1,  1, 0, 1,  1, 1, 0,  1, 0, 0,
    -- BOTTOM
    1, 0, 1,  0, 0, 1,  1, 0, 0,  0, 0, 0,
    -- FORWARD
    1, 1, 1,  0, 1, 1,  1, 0, 1,  0, 0, 1,
    -- RIGHT
    0, 1, 1,  0, 0, 1,  0, 1, 0,  0, 0, 0,
    -- TOP
    1, 1, 1,  0, 1, 1,  1, 1, 0,  0, 1, 0,
    -- BACKWARD
    1, 1, 0,  0, 1, 0,  1, 0, 0,  0, 0, 0 ]

/-- The canonical per-vertex normal list (`NORMALS` in `geometry.rs`). -/
def NORMALS : List ℚ :=
  [ -- LEFT
    1, 0, 0,  1, 0, 0,  1, 0, 0,  1, 0, 0,
    -- BOTTOM
    0, -1, 0,  0, -1, 0,  0, -1, 0,  0, -1, 0,
    -- FORWARD
    0, 0, 1,  0, 0, 1,  0, 0, 1,  0, 0, 1,
    -- RIGHT
    -1, 0, 0,  -1, 0, 0,  -1, 0, 0,  -1, 0, 0,
    -- TOP
    0, 1, 0,  0, 1, 0,  0, 1, 0,  0, 1, 0,
    -- BACKWARD
    0, 0, -1,  0, 0, -1,  0, 0, -1,  0, 0, -1 ]

/-- The canonical unit-cube index list (`INDICES` in `geometry.rs`):
36 indices, two triangles per face. -/
def INDICES : List Nat :=
  [ -- LEFT
    2, 0, 1,  2, 1, 3,
    -- BOTTOM
    6, 4, 5,  6, 5, 7,
    -- FORWARD
    10, 8, 9,  10, 9, 11,
    -- RIGHT
    13, 12, 14,  15, 13, 14,
    -- TOP
    17, 16, 18,  19, 17, 18,
    -- BACKWARD
    21, 20, 22,  23, 21, 22 ]

/-- Grouping a flat list into consecutive triples; this is the
`iter().chunks(3)` + `collect_array::<3>().unwrap()` idiom of
`prepare_geometry` (all chunked lists have length divisible by 3). -/
def chunks3 {α : Type} : List α → List (α × α × α)
  | a :: b :: c :: rest => (a, b, c) :: chunks3 rest
  | _ => []

/-- `RelativeVoxel` (`voxel.rs`): a material handle and a position offset
inside the unit cube. -/
structure RelativeVoxel where
  material : Nat
  position : ℚ × ℚ × ℚ
deriving DecidableEq, Repr, Inhabited

/-- `VoxelType` (`voxel.rs`): a size scalar and the list of relative voxels. -/
structure VoxelType where
  size : Int
  voxels : List RelativeVoxel
deriving DecidableEq, Repr, Inhabited

/-- `VoxelMaterial` (`voxel.rs`): the material payload stored in the shared
material buffer. -/
structure VoxelMaterial where
  diffuse : ℚ × ℚ × ℚ × ℚ
  diffuseTextureId : Int
  fuzziness : ℚ
  refractionIndex : ℚ
  materialModel : Nat
deriving DecidableEq, Repr, Inhabited

/-- A bevy `BufferVec`: the CPU-side data plus the GPU-side snapshot taken by
the most recent effective `write_buffer` (`none` until one happens). -/
structure BufferVec (α : Type) where
  data : List α
  buffer : Option (List α)
deriving DecidableEq, Repr, Inhabited

/-- `BufferVec::new`. -/
def BufferVec.empty {α : Type} : BufferVec α := { data := [], buffer := none }

/-- A batch of `BufferVec::push` calls. -/
def BufferVec.appendData {α : Type} (bv : BufferVec α) (xs : List α) : BufferVec α :=
  { bv with data := bv.data ++ xs }

/-- `BufferVec::len`. -/
def BufferVec.size {α : Type} (bv : BufferVec α) : Nat := bv.data.length

/-- `BufferVec::write_buffer`: uploads the data to the GPU; bevy's
implementation returns early when the data is empty, so in that case the
GPU-side buffer stays as it was. -/
def BufferVec.writeBuffer {α : Type} (bv : BufferVec α) : BufferVec α :=
  if bv.data.isEmpty then bv else { bv with buffer := some bv.data }

/-- `GeometryManager` (`geometry.rs`): the Geometry Store state. -/
structure GeometryManager where
  geometriesVertices : List (Nat × List ℚ)
  geometriesIndices : List (Nat × List Nat)
  addedTypes : List Nat
  addedMaterials : List Nat
  vertices : BufferVec ℚ
  indices : BufferVec Nat
  normals : BufferVec ℚ
  materials : BufferVec VoxelMaterial
  materialMap : BufferVec Nat
  objectMap : List (Nat × Nat)
  indexMap : List Nat
  materialIndexMap : List Nat
deriving DecidableEq, Repr

/-- `GeometryManager::default`. -/
def GeometryManager.default : GeometryManager :=
  { geometriesVertices := []
    geometriesIndices := []
    addedTypes := []
    addedMaterials := []
    vertices := BufferVec.empty
    indices := BufferVec.empty
    normals := BufferVec.empty
    materials := BufferVec.empty
    materialMap := BufferVec.empty
    objectMap := []
    indexMap := []
    materialIndexMap := [] }

instance : Inhabited GeometryManager := ⟨GeometryManager.default⟩

/-- `GeometryManager::index_of_material`: linear scan of the registered
material handles, returning the position of the first match. -/
def indexOfMaterial : List Nat → Nat → Option Nat
  | [], _ => none
  | m :: rest, id => if m = id then some 0 else (indexOfMaterial rest id).map (· + 1)

/-- `GeometryManager::get_object_id`. -/
def GeometryManager.getObjectId (gm : GeometryManager) (id : Nat) : Option Nat :=
  lookupA gm.objectMap id

/-- `GeometryManager::get_index`. -/
def GeometryManager.getIndex (gm : GeometryManager) (objectId : Nat) : Option Nat :=
  gm.indexMap[objectId]?

/-- `GeometryManager::get_index_material`. -/
def GeometryManager.getIndexMaterial (gm : GeometryManager) (objectId : Nat) : Option Nat :=
  gm.materialIndexMap[objectId]?

/-- `Transform::from_scale(Vec3::splat(s)).with_translation(t)` applied to a
point: scale then translate (the rotation is the identity). -/
def transformPoint (s : ℚ) (t : ℚ × ℚ × ℚ) (v : ℚ × ℚ × ℚ) : ℚ × ℚ × ℚ :=
  (s * v.1 + t.1, s * v.2.1 + t.2.1, s * v.2.2 + t.2.2)

/-- The shared-buffer vertex data appended for one voxel: each of the 24
transformed cube vertices followed by the literal `1.0` pad (four floats per
vertex in the shared buffer). `pos` is `voxel.position * size`. -/
def voxelSharedVertices (size : ℚ) (pos : ℚ × ℚ × ℚ) : List ℚ :=
  (chunks3 VERTICES).flatMap (fun v =>
    let w := transformPoint size pos v
    [w.1, w.2.1, w.2.2, 1])

/-- The per-type (compact) vertex data for one voxel: the 24 transformed cube
vertices, three floats each, no pad. -/
def voxelLocalVertices (size : ℚ) (pos : ℚ × ℚ × ℚ) : List ℚ :=
  (chunks3 VERTICES).flatMap (fun v =>
    let w := transformPoint size pos v
    [w.1, w.2.1, w.2.2])

/-- The shared-buffer index data appended for one voxel: each index triple is
offset by `offset * (VERTICES.len() / 3) + global_offset` and padded with a
trailing `0` (four ints per triangle in the shared buffer). -/
def voxelSharedIndices (offset globalOffset : Nat) : List Nat :=
  (chunks3 INDICES).flatMap (fun i =>
    [ i.1 + offset * (VERTICES.length / 3) + globalOffset,
      i.2.1 + offset * (VERTICES.length / 3) + globalOffset,
      i.2.2 + offset * (VERTICES.length / 3) + globalOffset,
      0])

/-- The per-type (compact) index data for one voxel: offset by
`offset * (VERTICES.len() / 3)` only, no global offset, no pad. -/
def voxelLocalIndices (offset : Nat) : List Nat :=
  (chunks3 INDICES).flatMap (fun i =>
    [ i.1 + offset * (VERTICES.length / 3),
      i.2.1 + offset * (VERTICES.length / 3),
      i.2.2 + offset * (VERTICES.length / 3)])

/-- The shared-buffer normal data appended for one voxel: the 24 canonical
normals, each padded with a trailing `1.0`. -/
def voxelSharedNormals : List ℚ :=
  (chunks3 NORMALS).flatMap (fun n => [n.1, n.2.1, n.2.2, 1])

/-- The per-voxel loop of `prepare_geometry` restricted to the shared-buffer
appends performed when the type is not yet added: returns the segments
appended to the shared vertex, index, material-map and normal buffers, or
`none` when some voxel's material is not registered (the `unwrap` on
`index_of_material` aborts). -/
def sharedAppends (mats : List Nat) (size : ℚ) (globalOffset : Nat) :
    List RelativeVoxel → Nat → Option (List ℚ × List Nat × List Nat × List ℚ)
  | [], _ => some ([], [], [], [])
  | v :: rest, offset =>
    match indexOfMaterial mats v.material with
    | none => none
    | some materialId =>
      match sharedAppends mats size globalOffset rest (offset + 1) with
      | none => none
      | some (vs, is, mm, ns) =>
        some
          ( voxelSharedVertices size (transformScale size v.position) ++ vs,
            voxelSharedIndices offset globalOffset ++ is,
            List.replicate (chunks3 INDICES).length materialId ++ mm,
            voxelSharedNormals ++ ns)
where
  /-- `voxel.position * size`. -/
  transformScale (s : ℚ) (p : ℚ × ℚ × ℚ) : ℚ × ℚ × ℚ := (s * p.1, s * p.2.1, s * p.2.2)

/-- The per-type compact vertex buffer built by `prepare_geometry`
(`create_buffer_with_data` input): depends only on the voxel type. -/
def localVertices (vt : VoxelType) : List ℚ :=
  let size : ℚ := 1 / (vt.size : ℚ)
  vt.voxels.flatMap (fun v =>
    voxelLocalVertices size (size * v.position.1, size * v.position.2.1, size * v.position.2.2))

/-- The per-type compact index buffer built by `prepare_geometry`: the index
content only depends on the running voxel offset. -/
def localIndices (vt : VoxelType) : List Nat :=
  (List.range vt.voxels.length).flatMap voxelLocalIndices

/-- One iteration of `prepare_geometry`'s loop over the extracted voxel types.
Returns the updated store together with the accumulated `new_additions`
flag, or `none` when the loop panics on an unregistered material. -/
def prepareGeometryOne (gm : GeometryManager) (newAdditions : Bool) (id : Nat)
    (vt : VoxelType) : Option (GeometryManager × Bool) :=
  let size : ℚ := 1 / (vt.size : ℚ)
  -- divided by 4 because the shader uses a vec4 for indices
  let globalOffset := gm.indices.size / 4
  let added : Bool := decide (id ∈ gm.addedTypes)
  let newAdditions := newAdditions || !added
  -- record the object id, the global index offset and the material offset
  let gm :=
    if added then gm
    else
      { gm with
        addedTypes := gm.addedTypes ++ [id]
        objectMap := insertA gm.objectMap id gm.addedTypes.length
        indexMap := gm.indexMap ++ [globalOffset]
        materialIndexMap := gm.materialIndexMap ++ [gm.materialMap.size] }
  match (if added then some ([], [], [], [])
         else sharedAppends gm.addedMaterials size globalOffset vt.voxels 0) with
  | none => none
  | some (vs, is, mm, ns) =>
    let gm :=
      { gm with
        vertices := gm.vertices.appendData vs
        indices := gm.indices.appendData is
        materialMap := gm.materialMap.appendData mm
        normals := gm.normals.appendData ns }
    let gm :=
      if newAdditions then
        { gm with
          vertices := gm.vertices.writeBuffer
          indices := gm.indices.writeBuffer
          normals := gm.normals.writeBuffer
          materialMap := gm.materialMap.writeBuffer }
      else gm
    some
      ( { gm with
          geometriesVertices := insertA gm.geometriesVertices id (localVertices vt)
          geometriesIndices := insertA gm.geometriesIndices id (localIndices vt) },
        newAdditions)

/-- The loop of `prepare_geometry` over all extracted voxel types. -/
def prepareGeometryGo : GeometryManager → Bool → List (Nat × VoxelType) →
    Option GeometryManager
  | gm, _, [] => some gm
  | gm, newAdditions, (id, vt) :: rest =>
    match prepareGeometryOne gm newAdditions id vt with
    | none => none
    | some (gm2, newAdditions2) => prepareGeometryGo gm2 newAdditions2 rest

/-- `prepare_geometry` (`geometry.rs`): drop removed types from the per-type
lookup maps, then ingest every extracted type; `none` models the abort on an
unregistered material. -/
def prepareGeometry (gm : GeometryManager) (removed : List Nat)
    (extracted : List (Nat × VoxelType)) : Option GeometryManager :=
  let gm :=
    { gm with
      geometriesVertices := removed.foldl removeA gm.geometriesVertices
      geometriesIndices := removed.foldl removeA gm.geometriesIndices }
  prepareGeometryGo gm false extracted

/-- The loop of `prepare_materials` over the extracted materials. -/
def prepareMaterialsGo : GeometryManager → Bool → List (Nat × VoxelMaterial) →
    GeometryManager × Bool
  | gm, newAdditions, [] => (gm, newAdditions)
  | gm, newAdditions, (id, m) :: rest =>
    let added : Bool := decide (id ∈ gm.addedMaterials)
    let newAdditions := newAdditions || !added
    let gm :=
      if added then gm
      else
        { gm with
          addedMaterials := gm.addedMaterials ++ [id]
          materials := gm.materials.appendData [m] }
    prepareMaterialsGo gm newAdditions rest

/-- `prepare_materials` (`geometry.rs`). -/
def prepareMaterials (gm : GeometryManager) (extracted : List (Nat × VoxelMaterial)) :
    GeometryManager :=
  let r := prepareMaterialsGo gm false extracted
  if r.2 then { r.1 with materials := r.1.materials.writeBuffer } else r.1

/-- A bottom-level acceleration structure handle; the only host-observable
datum the claims need is whether the handle is the compacted replacement
produced by `RenderQueue::compact_blas`. -/
structure Blas where
  compacted : Bool
deriving DecidableEq, Repr, Inhabited

/-- `BlasManager` (`blas.rs`): the BLAS map keyed by voxel-type id and the
compaction queue of `(id, vertex-count cost, in-flight flag)` entries. -/
structure BlasManager where
  blas : List (Nat × Blas)
  compactionQueue : List (Nat × Nat × Bool)
deriving DecidableEq, Repr, Inhabited

/-- `BlasManager::get`. -/
def BlasManager.get (bm : BlasManager) (id : Nat) : Option Blas :=
  lookupA bm.blas id

/-- `MAX_COMPACTION_VERTICES_PER_FRAME` (`blas.rs`). -/
def MAX_COMPACTION_VERTICES_PER_FRAME : Nat := 400000

/-- The `while` loop of `compact_blas`: `passes` is the remaining pass budget
(`queue_size - blocks_processed`), `vp` the vertices processed so far.
Returns the final state together with the number of loop iterations run
(`blocks_processed` accumulated by this call).  `ready id` models
`Blas::ready_for_compaction` (a GPU-side readiness poll);
`prepare_compaction_async` is a GPU-side request with no host-visible state,
so it does not appear in the state transition. -/
def compactGo (ready : Nat → Bool) : Nat → Nat → BlasManager → BlasManager × Nat
  | 0, _, bm => (bm, 0)
  | passes + 1, vp, bm =>
    match bm.compactionQueue with
    | [] => (bm, 0)
    | (id, count, _processing) :: rest =>
      if vp < MAX_COMPACTION_VERTICES_PER_FRAME then
        let bm1 : BlasManager := { bm with compactionQueue := rest }
        match bm1.get id with
        | none =>
          -- the BLAS was removed while queued: the entry is dropped
          let r := compactGo ready passes vp bm1
          (r.1, r.2 + 1)
        | some _blas =>
          if ready id then
            -- compacted copy replaces the map entry; the entry leaves the queue
            let r := compactGo ready passes (vp + count)
              { bm1 with blas := insertA bm1.blas id { compacted := true } }
            (r.1, r.2 + 1)
          else
            -- not yet ready: re-queued at the back with the in-flight flag set
            let r := compactGo ready passes vp
              { bm1 with compactionQueue := rest ++ [(id, count, true)] }
            (r.1, r.2 + 1)
      else (bm, 0)

/-- `compact_blas` (`blas.rs`): one compaction tick. -/
def compactBlas (ready : Nat → Bool) (bm : BlasManager) : BlasManager :=
  (compactGo ready bm.compactionQueue.length 0 bm).1

/-- The `blocks_processed` count of one `compact_blas` tick. -/
def compactBlasProcessed (ready : Nat → Bool) (bm : BlasManager) : Nat :=
  (compactGo ready bm.compactionQueue.length 0 bm).2

/-- Total vertex cost of a compaction queue. -/
def totalCost (q : List (Nat × Nat × Bool)) : Nat :=
  (q.map (fun e => e.2.1)).sum

/-- A 4×4 matrix of rationals, row-column indexed (`Mat4`). -/
def Mat4 : Type := Fin 4 → Fin 4 → ℚ

/-- `Mat4::transpose`. -/
def Mat4.transpose (m : Mat4) : Mat4 := fun r c => m c r

/-- `Mat4::to_cols_array`: the 16 entries in column-major order. -/
def Mat4.toColsArray (m : Mat4) : List ℚ :=
  (List.finRange 4).flatMap (fun c => (List.finRange 4).map (fun r => m r c))

/-- `tlas_transform` (`lib.rs`): the first 12 entries of the transposed
matrix's column-major array (a row-major 3×4 transform). -/
def tlasTransform (m : Mat4) : List ℚ :=
  (Mat4.toColsArray (Mat4.transpose m)).take 12

/-- One extracted scene object as seen by `prepare_bindings`: the
`RenderVoxelBlock` (voxel-type id), its `GlobalTransform` matrix and its
`InheritedVisibility` (`visible = false` is `InheritedVisibility::HIDDEN`). -/
structure Block where
  voxelType : Nat
  transform : Mat4
  visible : Bool

/-- `RenderObject` (`geometry.rs`): one record of the object-metadata
buffer. -/
structure RenderObject where
  index : Nat
  materialId : Nat
deriving DecidableEq, Repr, Inhabited

/-- One TLAS instance entry (`TlasInstance::new(blas, transform,
custom_index, 0xFF)`). -/
structure TlasInstance where
  blas : Blas
  transform : List ℚ
  customIndex : Nat
  mask : Nat
deriving DecidableEq, Repr, Inhabited

/-- The top-level acceleration structure: its declared capacity and the
written instance entries. -/
structure Tlas where
  maxInstances : Nat
  instances : List TlasInstance
deriving DecidableEq, Repr, Inhabited

/-- The binding set assembled by `prepare_bindings`, slot for slot. -/
structure BindGroup where
  tlas : Tlas
  objects : List RenderObject
  indices : List Nat
  vertices : List ℚ
  normals : List ℚ
  materials : List VoxelMaterial
  materialMap : List Nat
deriving DecidableEq, Repr, Inhabited

/-- `VoxelBindings` (`lib.rs`), restricted to its mutable part: the cached
bind group (the four layouts are created once and never change). -/
structure VoxelBindings where
  bindGroup : Option BindGroup

/-- The instance-assembly loop of `prepare_bindings`: walks the block query,
skipping hidden blocks and blocks without a BLAS map entry, early-returning
(`none`) when a geometry lookup fails, and otherwise accumulating the TLAS
instances and the object-metadata records. `instanceId` is the running
custom index. -/
def buildInstances (bm : BlasManager) (gm : GeometryManager) :
    List Block → Nat → Option (List TlasInstance × List RenderObject)
  | [], _ => some ([], [])
  | b :: rest, instanceId =>
    if b.visible = false then buildInstances bm gm rest instanceId
    else
      match bm.get b.voxelType with
      | none => buildInstances bm gm rest instanceId
      | some blas =>
        match gm.getObjectId b.voxelType with
        | none => none
        | some id =>
          match gm.getIndex id with
          | none => none
          | some indexId =>
            match gm.getIndexMaterial id with
            | none => none
            | some materialId =>
              match buildInstances bm gm rest (instanceId + 1) with
              | none => none
              | some (insts, objs) =>
                some
                  ( { blas := blas, transform := tlasTransform b.transform,
                      customIndex := instanceId, mask := 0xFF } :: insts,
                    { index := indexId, materialId := materialId } :: objs)

/-- The outcome of one `prepare_bindings` run: the bind group left in
`VoxelBindings` and, when the success path was reached, the TLAS whose
build was submitted (`none` means no TLAS build was submitted). -/
structure PrepareOut where
  bindGroup : Option BindGroup
  tlasBuilt : Option Tlas
deriving DecidableEq, Repr, Inhabited

/-- `prepare_bindings` (`lib.rs`): clears the bind group, returns early when
the block query is empty, assembles the TLAS instances and object metadata,
returns early (leaving the bind group `None`) when any of the shared
vertex/normal/index/material/material-map GPU buffers is absent, and
otherwise submits the TLAS build and publishes the new bind group. -/
def prepareBindings (bm : BlasManager) (gm : GeometryManager) (blocks : List Block) :
    PrepareOut :=
  if blocks.isEmpty then { bindGroup := none, tlasBuilt := none }
  else
    match buildInstances bm gm blocks 0 with
    | none => { bindGroup := none, tlasBuilt := none }
    | some (insts, objs) =>
      match gm.vertices.buffer with
      | none => { bindGroup := none, tlasBuilt := none }
      | some vertices =>
        match gm.normals.buffer with
        | none => { bindGroup := none, tlasBuilt := none }
        | some normals =>
          match gm.indices.buffer with
          | none => { bindGroup := none, tlasBuilt := none }
          | some indices =>
            match gm.materials.buffer with
            | none => { bindGroup := none, tlasBuilt := none }
            | some materials =>
              match gm.materialMap.buffer with
              | none => { bindGroup := none, tlasBuilt := none }
              | some materialMap =>
                let tlas : Tlas := { maxInstances := blocks.length, instances := insts }
                { bindGroup := some
                    { tlas := tlas, objects := objs, indices := indices,
                      vertices := vertices, normals := normals,
                      materials := materials, materialMap := materialMap },
                  tlasBuilt := some tlas }

/-- The `prepare_bindings` system effect on the `VoxelBindings` resource:
`bind_group` is overwritten unconditionally (it is set to `None` at the top
of the function and only the success path re-populates it). -/
def prepareBindingsSystem (_vb : VoxelBindings) (bm : BlasManager)
    (gm : GeometryManager) (blocks : List Block) : VoxelBindings :=
  { bindGroup := (prepareBindings bm gm blocks).bindGroup }

/-- The well-formedness invariant relating the BLAS map to the Geometry
Store, established by the system ordering (`prepare_geometry` runs before
`prepare_blas` and registers every extracted type in `object_map`,
`index_map` and `material_index_map` together; `object_map` entries are
never removed): every BLAS key has an object id, and every recorded object
id indexes into both position maps. -/
def SysWF (bm : BlasManager) (gm : GeometryManager) : Prop :=
  (∀ p ∈ bm.blas, (lookupA gm.objectMap p.1).isSome) ∧
  (∀ q ∈ gm.objectMap, q.2 < gm.indexMap.length ∧ q.2 < gm.materialIndexMap.length)

instance (bm : BlasManager) (gm : GeometryManager) : Decidable (SysWF bm gm) := by
  unfold SysWF; infer_instance

/-- The Geometry Store bookkeeping invariant: the recorded-range tables grow
in lockstep with the list of added types. -/
def GeomWF (gm : GeometryManager) : Prop :=
  gm.indexMap.length = gm.addedTypes.length ∧
  gm.materialIndexMap.length = gm.addedTypes.length

instance (gm : GeometryManager) : Decidable (GeomWF gm) := by
  unfold GeomWF; infer_instance

/-- `prepare_blas` (`blas.rs`) restricted to its host-visible state: drop
removed types from the BLAS map, then, for every extracted type, look up the
per-type compact buffers (the `unwrap` aborts when they are absent, modelled
by `none`), insert a freshly built (uncompacted) BLAS keyed by the type id
and push a compaction-queue entry `(id, vertex_count, false)`.  The GPU
build submission carries no host state. -/
def prepareBlasGo (gm : GeometryManager) :
    BlasManager → List (Nat × VoxelType) → Option BlasManager
  | bm, [] => some bm
  | bm, (id, _vt) :: rest =>
    match lookupA gm.geometriesVertices id, lookupA gm.geometriesIndices id with
    | some vertices, some _indices =>
      -- vertex_count = byte size / 4 / 16 (4 bytes per float, 16-byte stride)
      prepareBlasGo gm
        { bm with
          blas := insertA bm.blas id { compacted := false }
          compactionQueue :=
            bm.compactionQueue ++ [(id, 4 * vertices.length / 4 / 16, false)] }
        rest
    | _, _ => none

/-- `prepare_blas` (`blas.rs`). -/
def prepareBlas (bm : BlasManager) (gm : GeometryManager) (removed : List Nat)
    (extracted : List (Nat × VoxelType)) : Option BlasManager :=
  let bm := { bm with blas := removed.foldl removeA bm.blas }
  prepareBlasGo gm bm extracted

/-- The full Geometry Store invariant: the bookkeeping tables grow in
lockstep, every added type has an object id, and every recorded object id
indexes into both offset tables. -/
def StoreWF (gm : GeometryManager) : Prop :=
  GeomWF gm ∧
  (∀ id ∈ gm.addedTypes, (lookupA gm.objectMap id).isSome = true) ∧
  (∀ q ∈ gm.objectMap, q.2 < gm.indexMap.length ∧ q.2 < gm.materialIndexMap.length)

instance (gm : GeometryManager) : Decidable (StoreWF gm) := by
  unfold StoreWF; infer_instance

/-- `WgpuFeatures`, restricted to the two required raytracing flags plus one
representative non-required flag (the full type is a 64-bit flag set; the
set operations below act flag-wise exactly as the `bitflags` ones do). -/
structure WgpuFeatures where
  experimentalRayTracingAccelerationStructure : Bool
  experimentalRayQuery : Bool
  timestampQuery : Bool
deriving DecidableEq, Repr, Inhabited

/-- `WgpuFeatures::contains`: `self & other == other`. -/
def WgpuFeatures.containsF (a b : WgpuFeatures) : Bool :=
  (!b.experimentalRayTracingAccelerationStructure
      || a.experimentalRayTracingAccelerationStructure)
    && (!b.experimentalRayQuery || a.experimentalRayQuery)
    && (!b.timestampQuery || a.timestampQuery)

/-- `WgpuFeatures::difference`: `self & !other`. -/
def WgpuFeatures.difference (a b : WgpuFeatures) : WgpuFeatures :=
  { experimentalRayTracingAccelerationStructure :=
      a.experimentalRayTracingAccelerationStructure
        && !b.experimentalRayTracingAccelerationStructure
    experimentalRayQuery := a.experimentalRayQuery && !b.experimentalRayQuery
    timestampQuery := a.timestampQuery && !b.timestampQuery }

/-- `NEVRPlugin::required_hw_features` (`lib.rs`). -/
def requiredHwFeatures : WgpuFeatures :=
  { experimentalRayTracingAccelerationStructure := true
    experimentalRayQuery := true
    timestampQuery := false }

/-- The observable outcome of `NEVRPlugin::finish`: whether the render-stage
systems and resources were installed, and the feature set printed under the
label `Missing features:` when they were not. -/
structure FinishResult where
  installed : Bool
  reportedMissing : Option WgpuFeatures
deriving DecidableEq, Repr, Inhabited

/-- `NEVRPlugin::finish` (`lib.rs`): when the device feature set does not
contain the required features, print
`render_device.features().difference(required_hw_features())` under the
label `Missing features:` and return without registering any system or
resource; otherwise install everything. -/
def nevrPluginFinish (deviceFeatures : WgpuFeatures) : FinishResult :=
  if !(deviceFeatures.containsF requiredHwFeatures) then
    { installed := false,
      reportedMissing := some (deviceFeatures.difference requiredHwFeatures) }
  else { installed := true, reportedMissing := none }

/-!  Concrete states used by the closed witness and counterexample theorems. -/

/-- A concrete white lambertian material. -/
def mat0 : VoxelMaterial :=
  { diffuse := (1, 1, 1, 1), diffuseTextureId := -1, fuzziness := 0,
    refractionIndex := 0, materialModel := 0 }

/-- A concrete voxel type: size 1, a single voxel of material `0` at the
origin. -/
def vt1 : VoxelType := { size := 1, voxels := [{ material := 0, position := (0, 0, 0) }] }

/-- A voxel type whose only voxel references the unregistered material `5`. -/
def vtUnreg : VoxelType :=
  { size := 1, voxels := [{ material := 5, position := (0, 0, 0) }] }

/-- The Geometry Store after registering material `0`. -/
def gmM : GeometryManager := prepareMaterials GeometryManager.default [(0, mat0)]

/-- The Geometry Store after additionally ingesting `vt1` as type `0`. -/
def gmA1 : GeometryManager :=
  (prepareGeometry gmM [] [(0, vt1)]).getD GeometryManager.default

/-- The Geometry Store after additionally ingesting `vt1` again as type `1`. -/
def gmB1 : GeometryManager :=
  (prepareGeometry gmA1 [] [(1, vt1)]).getD GeometryManager.default

/-- A concrete Geometry Store state in which every shared GPU buffer is
present and type `0` is fully recorded. -/
def gmFull : GeometryManager :=
  { geometriesVertices := [(0, [1, 1, 1])]
    geometriesIndices := [(0, [2, 0, 1])]
    addedTypes := [0]
    addedMaterials := [0]
    vertices := { data := [1, 1, 1, 1], buffer := some [1, 1, 1, 1] }
    indices := { data := [2, 0, 1, 0], buffer := some [2, 0, 1, 0] }
    normals := { data := [1, 0, 0, 1], buffer := some [1, 0, 0, 1] }
    materials := { data := [mat0], buffer := some [mat0] }
    materialMap := { data := [0], buffer := some [0] }
    objectMap := [(0, 0)]
    indexMap := [0]
    materialIndexMap := [0] }

/-- A BLAS manager holding one (uncompacted) BLAS for type `0`. -/
def bmOne : BlasManager :=
  { blas := [(0, { compacted := false })], compactionQueue := [] }

/-- A BLAS manager with two queued, never-in-flight compaction entries. -/
def bmQ : BlasManager :=
  { blas := [(0, { compacted := false }), (1, { compacted := false })]
    compactionQueue := [(0, 24, false), (1, 24, false)] }

/-- The zero matrix, a concrete transform for witness blocks. -/
def mat4zero : Mat4 := fun _ _ => 0

/-- A visible block of voxel type `0`. -/
def block0 : Block := { voxelType := 0, transform := mat4zero, visible := true }

/-- A visible block of voxel type `7` (no BLAS map entry anywhere below). -/
def block7 : Block := { voxelType := 7, transform := mat4zero, visible := true }

/-!  ## Helper lemmas about the association-list and buffer primitives -/

theorem lookupA_mem {β : Type} : ∀ {m : List (Nat × β)} {k : Nat} {v : β},
    lookupA m k = some v → (k, v) ∈ m := by
  intro m
  induction m with
  | nil => intro k v h; simp [lookupA] at h
  | cons p rest ih =>
    intro k v h
    obtain ⟨k1, v1⟩ := p
    by_cases hk : k1 = k
    · subst hk
      simp [lookupA] at h
      subst h
      exact List.mem_cons_self _ _
    · simp [lookupA, hk] at h
      exact List.mem_cons_of_mem _ (ih h)

theorem lookupA_filter_ne {β : Type} : ∀ (m : List (Nat × β)) (k k2 : Nat),
    k2 ≠ k → lookupA (m.filter (fun p => p.1 != k)) k2 = lookupA m k2 := by
  intro m
  induction m with
  | nil => intro k k2 _; rfl
  | cons p rest ih =>
    intro k k2 hne
    obtain ⟨k1, v1⟩ := p
    by_cases h1 : k1 = k
    · rw [List.filter_cons_of_neg (by simp [h1])]
      rw [ih k k2 hne]
      have h2 : ¬ k1 = k2 := by rw [h1]; exact fun hh => hne hh.symm
      simp [lookupA, h2]
    · rw [List.filter_cons_of_pos (by simp [h1])]
      by_cases h2 : k1 = k2
      · simp [lookupA, h2]
      · simp [lookupA, h2, ih k k2 hne]

theorem lookupA_filter_self_none {β : Type} : ∀ (m : List (Nat × β)) (k : Nat),
    lookupA (m.filter (fun p => p.1 != k)) k = none := by
  intro m
  induction m with
  | nil => intro k; rfl
  | cons p rest ih =>
    intro k
    obtain ⟨k1, v1⟩ := p
    by_cases h1 : k1 = k
    · rw [List.filter_cons_of_neg (by simp [h1])]
      exact ih k
    · rw [List.filter_cons_of_pos (by simp [h1])]
      simp [lookupA, h1, ih k]

theorem lookupA_insertA_self {β : Type} (m : List (Nat × β)) (k : Nat) (v : β) :
    lookupA (insertA m k v) k = some v := by
  simp [insertA, lookupA]

theorem lookupA_insertA_ne {β : Type} (m : List (Nat × β)) {k k2 : Nat} (v : β)
    (h : k2 ≠ k) : lookupA (insertA m k v) k2 = lookupA m k2 := by
  have hk : ¬ k = k2 := fun hh => h hh.symm
  unfold insertA
  simp only [lookupA, if_neg hk]
  exact lookupA_filter_ne m k k2 h

theorem lookupA_insertA_isSome {β : Type} (m : List (Nat × β)) (k k2 : Nat) (v : β)
    (h : (lookupA m k2).isSome) : (lookupA (insertA m k v) k2).isSome := by
  by_cases hk : k2 = k
  · subst hk; simp [lookupA_insertA_self]
  · rw [lookupA_insertA_ne m v hk]; exact h

theorem mem_insertA {β : Type} {q : Nat × β} {m : List (Nat × β)} {k : Nat} {v : β}
    (h : q ∈ insertA m k v) : q = (k, v) ∨ q ∈ m := by
  simp only [insertA, List.mem_cons] at h
  rcases h with h | h
  · exact Or.inl h
  · exact Or.inr (List.mem_of_mem_filter h)

theorem lookupA_removeA_isSome {β : Type} (m : List (Nat × β)) (k k2 : Nat)
    (h : (lookupA (removeA m k) k2).isSome) : (lookupA m k2).isSome := by
  by_cases hk : k2 = k
  · subst hk
    unfold removeA at h
    rw [lookupA_filter_self_none] at h
    simp at h
  · unfold removeA at h
    rw [lookupA_filter_ne m k k2 hk] at h
    exact h

theorem removeA_foldl_isSome {β : Type} : ∀ (rs : List Nat) (m : List (Nat × β)) (k2 : Nat),
    (lookupA (rs.foldl removeA m) k2).isSome → (lookupA m k2).isSome := by
  intro rs
  induction rs with
  | nil => intro m k2 h; exact h
  | cons r rs ih =>
    intro m k2 h
    exact lookupA_removeA_isSome m r k2 (ih (removeA m r) k2 h)

theorem writeBuffer_data {α : Type} (bv : BufferVec α) : bv.writeBuffer.data = bv.data := by
  unfold BufferVec.writeBuffer
  split <;> rfl

/-!  ## Claim theorems -/

/-- C9 (code_bug evidence): at a device whose feature set is
`{TIMESTAMP_QUERY}` (missing both required raytracing flags), `finish`
refuses to install the render-stage hooks, but the set it prints under the
label `Missing features:` is `device.difference(required)` — the device's
own non-required features, `{TIMESTAMP_QUERY}` — which is not the missing
feature set `required.difference(device)` =
`{EXPERIMENTAL_RAY_TRACING_ACCELERATION_STRUCTURE, EXPERIMENTAL_RAY_QUERY}`:
the diagnostic does not identify the missing features. -/
theorem finish_feature_check_misreports_missing_set :
    (nevrPluginFinish ⟨false, false, true⟩).installed = false ∧
    (nevrPluginFinish ⟨false, false, true⟩).reportedMissing
      = some (WgpuFeatures.difference ⟨false, false, true⟩ requiredHwFeatures) ∧
    WgpuFeatures.difference ⟨false, false, true⟩ requiredHwFeatures
      = ⟨false, false, true⟩ ∧
    WgpuFeatures.difference requiredHwFeatures ⟨false, false, true⟩
      = ⟨true, true, false⟩ ∧
    (⟨false, false, true⟩ : WgpuFeatures) ≠ ⟨true, true, false⟩ := by
  refine ⟨rfl, rfl, rfl, rfl, ?_⟩
  decide

/-- C2 counterexample: in a state where every shared buffer is present, an
empty live-object set makes `prepare_bindings` return early: no TLAS build
is submitted (so no zero-instance TLAS is produced) and no binding set is
published — refuting the claim that the rebuild still performs a TLAS build
with zero instances. -/
theorem empty_object_set_zero_instance_tlas_refuted :
    (prepareBindings bmOne gmFull []).tlasBuilt = none ∧
    (prepareBindings bmOne gmFull []).bindGroup = none ∧
    gmFull.vertices.buffer.isSome = true ∧ gmFull.indices.buffer.isSome = true ∧
    gmFull.normals.buffer.isSome = true ∧ gmFull.materials.buffer.isSome = true ∧
    gmFull.materialMap.buffer.isSome = true :=
  ⟨rfl, rfl, rfl, rfl, rfl, rfl, rfl⟩

/-- C2 (amended): for the empty set of live objects, `prepare_bindings`
skips the TLAS build entirely (the `blocks_query.is_empty()` early return)
and publishes no binding set, rather than performing a zero-instance TLAS
build. -/
theorem empty_object_set_skips_tlas_build (bm : BlasManager) (gm : GeometryManager) :
    prepareBindings bm gm [] = { bindGroup := none, tlasBuilt := none } := rfl

/-- C1 counterexample: a state with a previously active binding set and a
missing required dependency (no live object): `prepare_bindings` leaves the
binding group `None`, i.e. the previous binding set is torn down, not
retained. -/
theorem missing_dependency_retains_previous_refuted :
    (prepareBindings bmOne gmFull []).bindGroup = none ∧
    (prepareBindingsSystem { bindGroup := some (default : BindGroup) }
        bmOne gmFull []).bindGroup = none ∧
    ({ bindGroup := some (default : BindGroup) } : VoxelBindings).bindGroup.isSome
      = true :=
  ⟨rfl, rfl, rfl⟩

/-- C1 (amended): for every frame in which `prepare_bindings` detects a
missing required dependency and therefore produces no new binding set, the
previously active binding set (if any) is cleared — `bind_group` is reset to
`None` at the top of the function and only the success path repopulates
it — rather than being left active. -/
theorem missing_dependency_clears_binding_set (vb : VoxelBindings) (bm : BlasManager)
    (gm : GeometryManager) (blocks : List Block)
    (h : (prepareBindings bm gm blocks).bindGroup = none) :
    (prepareBindingsSystem vb bm gm blocks).bindGroup = none := h

/-- Witness for C1 (amended) at a concrete state with a previously active
binding set and an empty block query. -/
theorem missing_dependency_clears_binding_set_witness :
    (prepareBindings bmOne gmFull []).bindGroup = none ∧
    (prepareBindingsSystem { bindGroup := some (default : BindGroup) }
        bmOne gmFull []).bindGroup = none :=
  ⟨rfl, missing_dependency_clears_binding_set
    { bindGroup := some (default : BindGroup) } bmOne gmFull [] rfl⟩

/-- The loop counter of `compact_blas` (second component of `compactGo`)
never exceeds the pass budget it starts from. -/
theorem compactGo_snd_le (ready : Nat → Bool) : ∀ (p vp : Nat) (bm : BlasManager),
    (compactGo ready p vp bm).2 ≤ p := by
  intro p
  induction p with
  | zero => intro vp bm; simp [compactGo]
  | succ p ih =>
    intro vp bm
    unfold compactGo
    dsimp only
    repeat' split
    all_goals
      first
      | exact Nat.zero_le _
      | exact Nat.succ_le_succ (ih _ _)

/-- C8: within a single `compact_blas` call, the number of queue entries
processed (`blocks_processed`) never exceeds the queue length captured at
the start of the call, for every readiness oracle — in particular the call
terminates even when every entry is re-queued as not yet ready. -/
theorem compaction_pass_bound (ready : Nat → Bool) (bm : BlasManager) :
    compactBlasProcessed ready bm ≤ bm.compactionQueue.length :=
  compactGo_snd_le ready bm.compactionQueue.length 0 bm

/-- C4: ingesting an already-recorded voxel-type handle leaves the shared
vertex, index, normal and material-index buffers (CPU data and GPU
snapshot), the material store, and every recorded byte range (`added_types`,
`object_map`, `index_map`, `material_index_map`) identical: all shared
appends are gated on `!added`. -/
theorem geometry_ingest_idempotent (gm : GeometryManager) (id : Nat) (vt : VoxelType)
    (h : id ∈ gm.addedTypes) :
    ∃ gm2, prepareGeometry gm [] [(id, vt)] = some gm2 ∧
      gm2.vertices = gm.vertices ∧ gm2.indices = gm.indices ∧
      gm2.normals = gm.normals ∧ gm2.materialMap = gm.materialMap ∧
      gm2.materials = gm.materials ∧ gm2.addedTypes = gm.addedTypes ∧
      gm2.objectMap = gm.objectMap ∧ gm2.indexMap = gm.indexMap ∧
      gm2.materialIndexMap = gm.materialIndexMap := by
  have hd : decide (id ∈ gm.addedTypes) = true := decide_eq_true h
  unfold prepareGeometry prepareGeometryGo prepareGeometryOne
  simp only [List.foldl_nil, hd, Bool.not_true, Bool.or_false, if_true]
  exact ⟨_, rfl, by simp [BufferVec.appendData], by simp [BufferVec.appendData],
    by simp [BufferVec.appendData], by simp [BufferVec.appendData], rfl, rfl, rfl, rfl, rfl⟩

/-- Witness for C4: re-ingesting type `0` into the store that already
recorded it. -/
theorem geometry_ingest_idempotent_witness :
    (0 : Nat) ∈ gmA1.addedTypes ∧
    ∃ gm2, prepareGeometry gmA1 [] [(0, vt1)] = some gm2 ∧
      gm2.vertices = gmA1.vertices ∧ gm2.indices = gmA1.indices ∧
      gm2.normals = gmA1.normals ∧ gm2.materialMap = gmA1.materialMap ∧
      gm2.materials = gmA1.materials ∧ gm2.addedTypes = gmA1.addedTypes ∧
      gm2.objectMap = gmA1.objectMap ∧ gm2.indexMap = gmA1.indexMap ∧
      gm2.materialIndexMap = gmA1.materialIndexMap :=
  ⟨by decide, geometry_ingest_idempotent gmA1 0 vt1 (by decide)⟩

/-- C6: a block whose voxel type has no entry in the BLAS map contributes
neither a TLAS instance nor an object-metadata record — the instance
assembly loop produces exactly the output it would produce were the block
absent from the query (custom indices included). -/
theorem blas_readiness_gating (bm : BlasManager) (gm : GeometryManager) (b : Block)
    (hb : bm.get b.voxelType = none) :
    ∀ (l1 l2 : List Block) (n : Nat),
      buildInstances bm gm (l1 ++ b :: l2) n = buildInstances bm gm (l1 ++ l2) n := by
  intro l1
  induction l1 with
  | nil =>
    intro l2 n
    simp only [List.nil_append]
    cases hv : b.visible with
    | false => simp [buildInstances, hv]
    | true => simp [buildInstances, hv, hb]
  | cons a l1 ih =>
    intro l2 n
    simp only [List.cons_append, buildInstances, List.append_eq, ih]

/-- Witness for C6: block `block7` (voxel type 7, no BLAS entry in `bmOne`)
contributes nothing next to `block0`. -/
theorem blas_readiness_gating_witness :
    bmOne.get block7.voxelType = none ∧
    buildInstances bmOne gmFull ([block0] ++ block7 :: []) 0
      = buildInstances bmOne gmFull ([block0] ++ []) 0 :=
  ⟨rfl, blas_readiness_gating bmOne gmFull block7 rfl [block0] [] 0⟩

theorem indexOfMaterial_eq_none_iff : ∀ (l : List Nat) (x : Nat),
    indexOfMaterial l x = none ↔ x ∉ l := by
  intro l
  induction l with
  | nil => intro x; simp [indexOfMaterial]
  | cons m rest ih =>
    intro x
    by_cases h : m = x
    · subst h
      simp [indexOfMaterial]
    · simp [indexOfMaterial, h, ih x, Ne.symm h]

theorem sharedAppends_eq_none_iff (mats : List Nat) (size : ℚ) (go : Nat) :
    ∀ (voxels : List RelativeVoxel) (offset : Nat),
      sharedAppends mats size go voxels offset = none ↔
        ∃ v ∈ voxels, indexOfMaterial mats v.material = none := by
  intro voxels
  induction voxels with
  | nil =>
    intro off
    simp [sharedAppends]
  | cons v rest ih =>
    intro off
    constructor
    · intro h
      cases hm : indexOfMaterial mats v.material with
      | none => exact ⟨v, List.mem_cons_self v rest, hm⟩
      | some mid =>
        cases hr : sharedAppends mats size go rest (off + 1) with
        | none =>
          obtain ⟨w, hw, hwm⟩ := (ih (off + 1)).mp hr
          exact ⟨w, List.mem_cons_of_mem v hw, hwm⟩
        | some tup =>
          obtain ⟨vs, is2, mm2, ns2⟩ := tup
          simp [sharedAppends, hm, hr] at h
    · rintro ⟨w, hw, hwm⟩
      rcases List.mem_cons.mp hw with hvw | hw2
      · subst hvw
        simp [sharedAppends, hwm]
      · cases hm : indexOfMaterial mats v.material with
        | none => simp [sharedAppends, hm]
        | some mid =>
          have hr : sharedAppends mats size go rest (off + 1) = none :=
            (ih (off + 1)).mpr ⟨w, hw2, hwm⟩
          simp [sharedAppends, hm, hr]

/-- C10: ingesting a not-yet-recorded voxel type aborts (the `unwrap` on
`index_of_material` panics) exactly when some voxel of the type references
a material that is not registered in the material store; when every
referenced material was registered beforehand (`prepare_materials` having
run first), the panic branch is unreachable and ingestion succeeds. -/
theorem ingest_unregistered_material_aborts (gm : GeometryManager) (id : Nat)
    (vt : VoxelType) (hnew : id ∉ gm.addedTypes) :
    ((∃ v ∈ vt.voxels, v.material ∉ gm.addedMaterials) →
        prepareGeometry gm [] [(id, vt)] = none) ∧
    ((∀ v ∈ vt.voxels, v.material ∈ gm.addedMaterials) →
        (prepareGeometry gm [] [(id, vt)]).isSome = true) := by
  have hd : decide (id ∈ gm.addedTypes) = false := decide_eq_false hnew
  constructor
  · rintro ⟨v, hv, hvm⟩
    have hnone : sharedAppends gm.addedMaterials ((vt.size : ℚ))⁻¹
        (gm.indices.size / 4) vt.voxels 0 = none :=
      (sharedAppends_eq_none_iff _ _ _ vt.voxels 0).mpr
        ⟨v, hv, (indexOfMaterial_eq_none_iff _ _).mpr hvm⟩
    unfold prepareGeometry prepareGeometryGo prepareGeometryOne
    simp [hd, hnone]
  · intro hall
    have hne : sharedAppends gm.addedMaterials ((vt.size : ℚ))⁻¹
        (gm.indices.size / 4) vt.voxels 0 ≠ none := by
      rw [Ne, sharedAppends_eq_none_iff]
      rintro ⟨w, hw, hwm⟩
      exact absurd (hall w hw) ((indexOfMaterial_eq_none_iff _ _).mp hwm)
    obtain ⟨tup, htup⟩ := Option.ne_none_iff_exists.mp hne
    obtain ⟨vs, is2, mm2, ns2⟩ := tup
    unfold prepareGeometry prepareGeometryGo prepareGeometryOne
    simp [hd, ← htup, prepareGeometryGo]

/-- Witness for C10: ingesting `vtUnreg` (material 5 unregistered) into the
store that registered only material 0 aborts; ingesting `vt1` (material 0,
registered by `prepare_materials`) succeeds. -/
theorem ingest_unregistered_material_aborts_witness :
    ((3 : Nat) ∉ gmM.addedTypes ∧ prepareGeometry gmM [] [(3, vtUnreg)] = none) ∧
    (prepareGeometry gmM [] [(3, vt1)]).isSome = true :=
  ⟨⟨by decide,
    (ingest_unregistered_material_aborts gmM 3 vtUnreg (by decide)).1
      ⟨{ material := 5, position := (0, 0, 0) }, by decide, by decide⟩⟩,
   (ingest_unregistered_material_aborts gmM 3 vt1 (by decide)).2 (by decide)⟩

/-- Under the system invariant, the instance-assembly loop never hits one of
its early-return cases: every block with a BLAS map entry also has a
complete Geometry Store record. -/
theorem buildInstances_isSome (bm : BlasManager) (gm : GeometryManager)
    (hwf : SysWF bm gm) :
    ∀ (blocks : List Block) (n : Nat), (buildInstances bm gm blocks n).isSome = true := by
  intro blocks
  induction blocks with
  | nil => intro n; rfl
  | cons b rest ih =>
    intro n
    by_cases hv : b.visible = false
    · simp [buildInstances, hv, ih]
    · cases hg : bm.get b.voxelType with
      | none => simp [buildInstances, hv, hg, ih]
      | some blas =>
        have hmem : (b.voxelType, blas) ∈ bm.blas := lookupA_mem hg
        have hobj : (lookupA gm.objectMap b.voxelType).isSome = true := hwf.1 _ hmem
        obtain ⟨oid, hoid⟩ := Option.isSome_iff_exists.mp hobj
        have hbounds := hwf.2 _ (lookupA_mem hoid)
        obtain ⟨ix, hidx⟩ : ∃ ix, gm.indexMap[oid]? = some ix := by
          rw [List.getElem?_eq_getElem hbounds.1]
          exact ⟨_, rfl⟩
        obtain ⟨mx, hmat⟩ : ∃ mx, gm.materialIndexMap[oid]? = some mx := by
          rw [List.getElem?_eq_getElem hbounds.2]
          exact ⟨_, rfl⟩
        obtain ⟨pr, hpr⟩ := Option.isSome_iff_exists.mp (ih (n + 1))
        obtain ⟨insts, objs⟩ := pr
        simp [buildInstances, hv, hg, GeometryManager.getObjectId, hoid,
          GeometryManager.getIndex, hidx, GeometryManager.getIndexMaterial, hmat, hpr]

/-- C3: under the system invariant relating the BLAS map to the Geometry
Store, `prepare_bindings` publishes a binding set if and only if the vertex
buffer, index buffer, normal buffer, material buffer, material-index map
and at least one live object (a non-empty block query) are all present;
whenever any one of them is absent it leaves the binding set `None`. -/
theorem prepare_bindings_some_iff (bm : BlasManager) (gm : GeometryManager)
    (blocks : List Block) (hwf : SysWF bm gm) :
    ((prepareBindings bm gm blocks).bindGroup.isSome = true) ↔
      (blocks ≠ [] ∧ gm.vertices.buffer.isSome = true ∧
       gm.indices.buffer.isSome = true ∧ gm.normals.buffer.isSome = true ∧
       gm.materials.buffer.isSome = true ∧ gm.materialMap.buffer.isSome = true) := by
  by_cases hemp : blocks = []
  · subst hemp
    simp [prepareBindings]
  · obtain ⟨pr, hpr⟩ := Option.isSome_iff_exists.mp (buildInstances_isSome bm gm hwf blocks 0)
    obtain ⟨insts, objs⟩ := pr
    have hne : blocks.isEmpty = false := by
      simp [List.isEmpty_iff, hemp]
    unfold prepareBindings
    rw [hne, hpr]
    cases hv : gm.vertices.buffer <;> cases hn : gm.normals.buffer <;>
      cases hi : gm.indices.buffer <;> cases hm : gm.materials.buffer <;>
      cases hmm : gm.materialMap.buffer <;> simp [hemp]

/-- Witness for C3 at a concrete well-formed state with one visible block
and every buffer present. -/
theorem prepare_bindings_some_iff_witness :
    SysWF bmOne gmFull ∧
    (((prepareBindings bmOne gmFull [block0]).bindGroup.isSome = true) ↔
      ([block0] ≠ [] ∧ gmFull.vertices.buffer.isSome = true ∧
       gmFull.indices.buffer.isSome = true ∧ gmFull.normals.buffer.isSome = true ∧
       gmFull.materials.buffer.isSome = true ∧
       gmFull.materialMap.buffer.isSome = true)) :=
  ⟨by decide, prepare_bindings_some_iff bmOne gmFull [block0] (by decide)⟩

/-- Inversion of a successful single-type ingestion of a not-yet-recorded
type: the resulting store is exactly the input store with the type recorded
and the four shared buffers extended by the appended segments. -/
theorem prepareGeometry_new_inv (gm : GeometryManager) (id : Nat) (vt : VoxelType)
    (hnew : id ∉ gm.addedTypes) {gm2 : GeometryManager}
    (h : prepareGeometry gm [] [(id, vt)] = some gm2) :
    ∃ vs is2 mm2 ns2,
      sharedAppends gm.addedMaterials ((vt.size : ℚ))⁻¹ (gm.indices.size / 4)
          vt.voxels 0 = some (vs, is2, mm2, ns2) ∧
      gm2 = { geometriesVertices := insertA gm.geometriesVertices id (localVertices vt)
              geometriesIndices := insertA gm.geometriesIndices id (localIndices vt)
              addedTypes := gm.addedTypes ++ [id]
              addedMaterials := gm.addedMaterials
              vertices := (gm.vertices.appendData vs).writeBuffer
              indices := (gm.indices.appendData is2).writeBuffer
              normals := (gm.normals.appendData ns2).writeBuffer
              materials := gm.materials
              materialMap := (gm.materialMap.appendData mm2).writeBuffer
              objectMap := insertA gm.objectMap id gm.addedTypes.length
              indexMap := gm.indexMap ++ [gm.indices.size / 4]
              materialIndexMap := gm.materialIndexMap ++ [gm.materialMap.size] } := by
  have hd : decide (id ∈ gm.addedTypes) = false := decide_eq_false hnew
  unfold prepareGeometry prepareGeometryGo prepareGeometryOne at h
  cases hsa : sharedAppends gm.addedMaterials ((vt.size : ℚ))⁻¹ (gm.indices.size / 4)
      vt.voxels 0 with
  | none => simp [hd, hsa] at h
  | some tup =>
    obtain ⟨vs, is2, mm2, ns2⟩ := tup
    simp [hd, hsa, prepareGeometryGo] at h
    exact ⟨vs, is2, mm2, ns2, rfl, h.symm⟩

/-- C5: the Geometry Store is append-only.  For a type A ingested before a
type B, B's ingestion only appends to each shared buffer (so A's recorded
slice and its contents are untouched), A's handle record and recorded
offsets survive B's ingestion unchanged, and A's recorded entry strictly
precedes B's with A's recorded start offset at most B's in both offset
tables. -/
theorem geometry_store_append_only (gm0 gmA gmB : GeometryManager)
    (a b : Nat) (vtA vtB : VoxelType)
    (hab : a ≠ b) (ha : a ∉ gm0.addedTypes) (hb : b ∉ gmA.addedTypes)
    (hwf : GeomWF gm0)
    (hA : prepareGeometry gm0 [] [(a, vtA)] = some gmA)
    (hB : prepareGeometry gmA [] [(b, vtB)] = some gmB) :
    ((∃ t, gmA.vertices.data = gm0.vertices.data ++ t) ∧
     (∃ t, gmB.vertices.data = gmA.vertices.data ++ t)) ∧
    ((∃ t, gmA.indices.data = gm0.indices.data ++ t) ∧
     (∃ t, gmB.indices.data = gmA.indices.data ++ t)) ∧
    ((∃ t, gmA.normals.data = gm0.normals.data ++ t) ∧
     (∃ t, gmB.normals.data = gmA.normals.data ++ t)) ∧
    ((∃ t, gmA.materialMap.data = gm0.materialMap.data ++ t) ∧
     (∃ t, gmB.materialMap.data = gmA.materialMap.data ++ t)) ∧
    gmB.materials = gmA.materials ∧
    lookupA gmB.objectMap a = lookupA gmA.objectMap a ∧
    (∃ oa ob ia ib ma mb,
      lookupA gmB.objectMap a = some oa ∧ lookupA gmB.objectMap b = some ob ∧
      oa < ob ∧
      gmB.indexMap[oa]? = some ia ∧ gmA.indexMap[oa]? = some ia ∧
      gmB.indexMap[ob]? = some ib ∧ ia ≤ ib ∧
      gmB.materialIndexMap[oa]? = some ma ∧ gmA.materialIndexMap[oa]? = some ma ∧
      gmB.materialIndexMap[ob]? = some mb ∧ ma ≤ mb) := by
  obtain ⟨vsA, isA, mmA, nsA, hsaA, hgmA⟩ := prepareGeometry_new_inv gm0 a vtA ha hA
  obtain ⟨vsB, isB, mmB, nsB, hsaB, hgmB⟩ := prepareGeometry_new_inv gmA b vtB hb hB
  obtain ⟨hwf1, hwf2⟩ := hwf
  subst hgmB
  refine ⟨⟨⟨vsA, by rw [hgmA]; simp [BufferVec.appendData, writeBuffer_data]⟩,
           ⟨vsB, by simp [BufferVec.appendData, writeBuffer_data]⟩⟩,
          ⟨⟨isA, by rw [hgmA]; simp [BufferVec.appendData, writeBuffer_data]⟩,
           ⟨isB, by simp [BufferVec.appendData, writeBuffer_data]⟩⟩,
          ⟨⟨nsA, by rw [hgmA]; simp [BufferVec.appendData, writeBuffer_data]⟩,
           ⟨nsB, by simp [BufferVec.appendData, writeBuffer_data]⟩⟩,
          ⟨⟨mmA, by rw [hgmA]; simp [BufferVec.appendData, writeBuffer_data]⟩,
           ⟨mmB, by simp [BufferVec.appendData, writeBuffer_data]⟩⟩,
          rfl, lookupA_insertA_ne _ _ hab, ?_⟩
  -- the recorded object ids and offsets
  have hlenA : gmA.indexMap.length = gm0.indexMap.length + 1 := by
    rw [hgmA]; simp
  have hlenMA : gmA.materialIndexMap.length = gm0.materialIndexMap.length + 1 := by
    rw [hgmA]; simp
  have haddA : gmA.addedTypes.length = gm0.addedTypes.length + 1 := by
    rw [hgmA]; simp
  have hoa : lookupA gmA.objectMap a = some gm0.addedTypes.length := by
    rw [hgmA]; exact lookupA_insertA_self _ _ _
  refine ⟨gm0.addedTypes.length, gmA.addedTypes.length,
      gm0.indices.size / 4, gmA.indices.size / 4,
      gm0.materialMap.size, gmA.materialMap.size,
      ?_, ?_, ?_, ?_, ?_, ?_, ?_, ?_, ?_, ?_, ?_⟩
  · rw [lookupA_insertA_ne _ _ hab]; exact hoa
  · exact lookupA_insertA_self _ _ _
  · rw [haddA]; exact Nat.lt_succ_self _
  · -- gmB.indexMap[oa]? = some ia
    show (gmA.indexMap ++ [gmA.indices.size / 4])[gm0.addedTypes.length]? = _
    rw [List.getElem?_append_left (by rw [hlenA, hwf1]; exact Nat.lt_succ_self _)]
    rw [hgmA]
    show (gm0.indexMap ++ [gm0.indices.size / 4])[gm0.addedTypes.length]? = _
    rw [← hwf1]
    exact List.getElem?_concat_length _ _
  · -- gmA.indexMap[oa]? = some ia
    rw [hgmA]
    show (gm0.indexMap ++ [gm0.indices.size / 4])[gm0.addedTypes.length]? = _
    rw [← hwf1]
    exact List.getElem?_concat_length _ _
  · -- gmB.indexMap[ob]? = some ib
    show (gmA.indexMap ++ [gmA.indices.size / 4])[gmA.addedTypes.length]? = _
    rw [show gmA.addedTypes.length = gmA.indexMap.length by rw [hlenA, haddA, hwf1]]
    exact List.getElem?_concat_length _ _
  · -- ia ≤ ib: the global index offset is monotone
    have : gm0.indices.size ≤ gmA.indices.size := by
      rw [hgmA]
      simp [BufferVec.size, BufferVec.appendData, writeBuffer_data]
    exact Nat.div_le_div_right this
  · -- gmB.materialIndexMap[oa]? = some ma
    show (gmA.materialIndexMap ++ [gmA.materialMap.size])[gm0.addedTypes.length]? = _
    rw [List.getElem?_append_left (by rw [hlenMA, hwf2]; exact Nat.lt_succ_self _)]
    rw [hgmA]
    show (gm0.materialIndexMap ++ [gm0.materialMap.size])[gm0.addedTypes.length]? = _
    rw [← hwf2]
    exact List.getElem?_concat_length _ _
  · -- gmA.materialIndexMap[oa]? = some ma
    rw [hgmA]
    show (gm0.materialIndexMap ++ [gm0.materialMap.size])[gm0.addedTypes.length]? = _
    rw [← hwf2]
    exact List.getElem?_concat_length _ _
  · -- gmB.materialIndexMap[ob]? = some mb
    show (gmA.materialIndexMap ++ [gmA.materialMap.size])[gmA.addedTypes.length]? = _
    rw [show gmA.addedTypes.length = gmA.materialIndexMap.length by
      rw [hlenMA, haddA, hwf2]]
    exact List.getElem?_concat_length _ _
  · -- ma ≤ mb: the material offset is monotone
    rw [hgmA]
    simp [BufferVec.size, BufferVec.appendData, writeBuffer_data]

/-- Witness for C5: type `0` ingested into the fresh store, then type `1`
ingested on top. -/
theorem geometry_store_append_only_witness :
    ((0 : Nat) ∉ gmM.addedTypes ∧ (1 : Nat) ∉ gmA1.addedTypes ∧ GeomWF gmM) ∧
    (((∃ t, gmA1.vertices.data = gmM.vertices.data ++ t) ∧
      (∃ t, gmB1.vertices.data = gmA1.vertices.data ++ t)) ∧
     ((∃ t, gmA1.indices.data = gmM.indices.data ++ t) ∧
      (∃ t, gmB1.indices.data = gmA1.indices.data ++ t)) ∧
     ((∃ t, gmA1.normals.data = gmM.normals.data ++ t) ∧
      (∃ t, gmB1.normals.data = gmA1.normals.data ++ t)) ∧
     ((∃ t, gmA1.materialMap.data = gmM.materialMap.data ++ t) ∧
      (∃ t, gmB1.materialMap.data = gmA1.materialMap.data ++ t)) ∧
     gmB1.materials = gmA1.materials ∧
     lookupA gmB1.objectMap 0 = lookupA gmA1.objectMap 0 ∧
     (∃ oa ob ia ib ma mb,
       lookupA gmB1.objectMap 0 = some oa ∧ lookupA gmB1.objectMap 1 = some ob ∧
       oa < ob ∧
       gmB1.indexMap[oa]? = some ia ∧ gmA1.indexMap[oa]? = some ia ∧
       gmB1.indexMap[ob]? = some ib ∧ ia ≤ ib ∧
       gmB1.materialIndexMap[oa]? = some ma ∧ gmA1.materialIndexMap[oa]? = some ma ∧
       gmB1.materialIndexMap[ob]? = some mb ∧ ma ≤ mb)) :=
  ⟨⟨by decide, by decide, by decide⟩,
   geometry_store_append_only gmM gmA1 gmB1 0 1 vt1 vt1 (by decide) (by decide)
     (by decide) (by decide) rfl rfl⟩

/-- One `compact_blas` pass with an all-ready oracle and a fully-backed
queue: some non-empty head segment of the queue is compacted and removed,
the rest of the queue survives as a suffix, compacted map entries persist,
and map-entry presence persists. -/
theorem compactGo_allReady (ready : Nat → Bool) :
    ∀ (p vp : Nat) (bm : BlasManager),
      (∀ e ∈ bm.compactionQueue, ready e.1 = true) →
      (∀ e ∈ bm.compactionQueue, (lookupA bm.blas e.1).isSome = true) →
      ∃ k,
        (compactGo ready p vp bm).1.compactionQueue = bm.compactionQueue.drop k ∧
        (∀ e ∈ bm.compactionQueue.take k,
          lookupA (compactGo ready p vp bm).1.blas e.1 = some { compacted := true }) ∧
        (∀ id2, lookupA bm.blas id2 = some { compacted := true } →
          lookupA (compactGo ready p vp bm).1.blas id2 = some { compacted := true }) ∧
        (∀ id2, (lookupA bm.blas id2).isSome = true →
          (lookupA (compactGo ready p vp bm).1.blas id2).isSome = true) ∧
        (p ≠ 0 → vp < MAX_COMPACTION_VERTICES_PER_FRAME →
          bm.compactionQueue ≠ [] → k ≠ 0) := by
  intro p
  induction p with
  | zero =>
    intro vp bm _ _
    refine ⟨0, ?_, ?_, ?_, ?_, ?_⟩
    · simp [compactGo]
    · simp
    · intro id2 h; simpa [compactGo] using h
    · intro id2 h; simpa [compactGo] using h
    · intro h; exact absurd rfl h
  | succ p ih =>
    intro vp bm hready hblas
    rcases hq : bm.compactionQueue with _ | ⟨⟨id, count, proc⟩, rest⟩
    · have hres : compactGo ready (p + 1) vp bm = (bm, 0) := by
        simp [compactGo, hq]
      refine ⟨0, ?_, ?_, ?_, ?_, ?_⟩
      · simp [hres, hq]
      · simp
      · intro id2 h; rw [hres]; exact h
      · intro id2 h; rw [hres]; exact h
      · intro _ _ hne; exact absurd rfl hne
    · by_cases hvp : vp < MAX_COMPACTION_VERTICES_PER_FRAME
      · have hrd : ready id = true :=
          hready (id, count, proc) (by rw [hq]; exact List.mem_cons_self _ _)
        have hbs : (lookupA bm.blas id).isSome = true :=
          hblas (id, count, proc) (by rw [hq]; exact List.mem_cons_self _ _)
        obtain ⟨bl, hbl⟩ := Option.isSome_iff_exists.mp hbs
        have hstep : compactGo ready (p + 1) vp bm =
            ((compactGo ready p (vp + count)
                { blas := insertA bm.blas id { compacted := true },
                  compactionQueue := rest }).1,
             (compactGo ready p (vp + count)
                { blas := insertA bm.blas id { compacted := true },
                  compactionQueue := rest }).2 + 1) := by
          simp [compactGo, hq, hvp, BlasManager.get, hbl, hrd]
        have hready2 : ∀ e ∈ rest, ready e.1 = true := by
          intro e he
          exact hready e (by rw [hq]; exact List.mem_cons_of_mem _ he)
        have hblas2 : ∀ e ∈ rest,
            (lookupA (insertA bm.blas id { compacted := true }) e.1).isSome = true := by
          intro e he
          exact lookupA_insertA_isSome _ _ _ _
            (hblas e (by rw [hq]; exact List.mem_cons_of_mem _ he))
        obtain ⟨k2, h1, h2, h3, h4, _⟩ := ih (vp + count)
          { blas := insertA bm.blas id { compacted := true }, compactionQueue := rest }
          hready2 hblas2
        have hmono1 : ∀ id2, lookupA bm.blas id2 = some { compacted := true } →
            lookupA (insertA bm.blas id { compacted := true }) id2
              = some { compacted := true } := by
          intro id2 hh
          by_cases hid : id2 = id
          · subst hid; exact lookupA_insertA_self _ _ _
          · rw [lookupA_insertA_ne _ _ hid]; exact hh
        refine ⟨k2 + 1, ?_, ?_, ?_, ?_, ?_⟩
        · rw [hstep]
          simpa using h1
        · rw [hstep]
          intro e he
          rw [List.take_succ_cons] at he
          rcases List.mem_cons.mp he with hhd | htl
          · subst hhd
            exact h3 id (lookupA_insertA_self _ _ _)
          · exact h2 e htl
        · intro id2 hh
          rw [hstep]
          exact h3 id2 (hmono1 id2 hh)
        · intro id2 hh
          rw [hstep]
          exact h4 id2 (lookupA_insertA_isSome _ _ _ _ hh)
        · intro _ _ _; exact Nat.succ_ne_zero k2
      · have hres : compactGo ready (p + 1) vp bm = (bm, 0) := by
          simp [compactGo, hq, hvp]
        refine ⟨0, ?_, ?_, ?_, ?_, ?_⟩
        · simp [hres, hq]
        · simp
        · intro id2 h; rw [hres]; exact h
        · intro id2 h; rw [hres]; exact h
        · intro _ hvp2 _; exact absurd hvp2 hvp

/-- Iterating `compact_blas` with an all-ready oracle: once the tick count
reaches the queue length, the queue is empty and every originally queued
entry has a compacted BLAS in the map. -/
theorem compactBlas_iterate_allReady (ready : Nat → Bool) :
    ∀ (n : Nat) (bm : BlasManager),
      bm.compactionQueue.length ≤ n →
      (∀ e ∈ bm.compactionQueue, ready e.1 = true) →
      (∀ e ∈ bm.compactionQueue, (lookupA bm.blas e.1).isSome = true) →
      ((compactBlas ready)^[n] bm).compactionQueue = [] ∧
      (∀ e ∈ bm.compactionQueue,
        lookupA ((compactBlas ready)^[n] bm).blas e.1 = some { compacted := true }) ∧
      (∀ id2, lookupA bm.blas id2 = some { compacted := true } →
        lookupA ((compactBlas ready)^[n] bm).blas id2 = some { compacted := true }) := by
  intro n
  induction n with
  | zero =>
    intro bm hlen _ _
    have hq : bm.compactionQueue = [] := List.length_eq_zero.mp (Nat.le_zero.mp hlen)
    exact ⟨hq, by simp [hq], fun _ h => h⟩
  | succ n ih =>
    intro bm hlen hready hblas
    by_cases hne : bm.compactionQueue = []
    · have hfix : compactBlas ready bm = bm := by
        unfold compactBlas
        simp [hne, compactGo]
      rw [Function.iterate_succ_apply, hfix]
      exact ih bm (by rw [hne]; exact Nat.zero_le n) hready hblas
    · obtain ⟨k, h1, h2, h3, h4, h5⟩ := compactGo_allReady ready
        bm.compactionQueue.length 0 bm hready hblas
      have hk : k ≠ 0 := h5 (by simpa [List.length_eq_zero] using hne) (by decide) hne
      have hlen2 : (compactBlas ready bm).compactionQueue.length ≤ n := by
        show ((compactGo ready bm.compactionQueue.length 0 bm).1.compactionQueue).length ≤ n
        rw [h1, List.length_drop]
        omega
      have hsub : ∀ e ∈ (compactBlas ready bm).compactionQueue,
          e ∈ bm.compactionQueue := by
        intro e he
        have : e ∈ bm.compactionQueue.drop k := by
          rw [← h1]; exact he
        exact List.mem_of_mem_drop this
      have hready2 : ∀ e ∈ (compactBlas ready bm).compactionQueue, ready e.1 = true :=
        fun e he => hready e (hsub e he)
      have hblas2 : ∀ e ∈ (compactBlas ready bm).compactionQueue,
          (lookupA (compactBlas ready bm).blas e.1).isSome = true :=
        fun e he => h4 e.1 (hblas e (hsub e he))
      obtain ⟨hq2, hcomp2, hmono2⟩ := ih (compactBlas ready bm) hlen2 hready2 hblas2
      rw [Function.iterate_succ_apply]
      refine ⟨hq2, ?_, fun id2 hh => hmono2 id2 (h3 id2 hh)⟩
      intro e he
      rw [← List.take_append_drop k bm.compactionQueue] at he
      rcases List.mem_append.mp he with htk | hdr
      · exact hmono2 e.1 (h2 e htk)
      · refine hcomp2 e ?_
        show e ∈ (compactGo ready bm.compactionQueue.length 0 bm).1.compactionQueue
        rw [h1]
        exact hdr

/-- C7: for every compaction queue whose total vertex cost is within the
per-tick budget, whose entries all have live BLAS map entries, and whose
readiness oracle reports each prepared entry ready when polled, iterating
`compact_blas` queue-length many times empties the queue and leaves every
queued entry's BLAS compacted in the map. -/
theorem compaction_convergence (ready : Nat → Bool) (bm : BlasManager)
    (hbudget : totalCost bm.compactionQueue ≤ MAX_COMPACTION_VERTICES_PER_FRAME)
    (hready : ∀ e ∈ bm.compactionQueue, ready e.1 = true)
    (hblas : ∀ e ∈ bm.compactionQueue, (bm.get e.1).isSome = true) :
    ((compactBlas ready)^[bm.compactionQueue.length] bm).compactionQueue = [] ∧
    ∀ e ∈ bm.compactionQueue,
      lookupA ((compactBlas ready)^[bm.compactionQueue.length] bm).blas e.1
        = some { compacted := true } := by
  obtain ⟨h1, h2, _⟩ := compactBlas_iterate_allReady ready
    bm.compactionQueue.length bm (Nat.le_refl _) hready hblas
  exact ⟨h1, h2⟩

/-- Witness for C7: a two-entry queue with total cost 48 ≤ 400000, both
entries backed by map entries, under the always-ready oracle. -/
theorem compaction_convergence_witness :
    (totalCost bmQ.compactionQueue ≤ MAX_COMPACTION_VERTICES_PER_FRAME ∧
     (∀ e ∈ bmQ.compactionQueue, (bmQ.get e.1).isSome = true)) ∧
    (((compactBlas (fun _ => true))^[bmQ.compactionQueue.length] bmQ).compactionQueue
        = [] ∧
     ∀ e ∈ bmQ.compactionQueue,
       lookupA ((compactBlas (fun _ => true))^[bmQ.compactionQueue.length] bmQ).blas e.1
         = some { compacted := true }) :=
  ⟨⟨by decide, by decide⟩,
   compaction_convergence (fun _ => true) bmQ (by decide) (by decide) (by decide)⟩

/-!  ## Invariant justification

The well-formedness hypotheses used above (`GeomWF`, `SysWF`) are not
ad-hoc: they hold in the initial state and are established and preserved by
the render systems in their scheduled order (`prepare_materials`, then
`prepare_geometry`, then `prepare_blas`).  The lemmas below prove this for
the embedded systems. -/

theorem storeWF_default : StoreWF GeometryManager.default := by decide

/-- The effect of one ingestion step on the bookkeeping fields: either the
type was already recorded and they are untouched, or the type is appended
to all tables in lockstep. -/
theorem prepareGeometryOne_cases (gm : GeometryManager) (na : Bool) (id : Nat)
    (vt : VoxelType) {gm2 : GeometryManager} {na2 : Bool}
    (h : prepareGeometryOne gm na id vt = some (gm2, na2)) :
    (id ∈ gm.addedTypes ∧
     gm2.addedTypes = gm.addedTypes ∧ gm2.objectMap = gm.objectMap ∧
     gm2.indexMap = gm.indexMap ∧ gm2.materialIndexMap = gm.materialIndexMap) ∨
    (id ∉ gm.addedTypes ∧
     gm2.addedTypes = gm.addedTypes ++ [id] ∧
     gm2.objectMap = insertA gm.objectMap id gm.addedTypes.length ∧
     gm2.indexMap = gm.indexMap ++ [gm.indices.size / 4] ∧
     gm2.materialIndexMap = gm.materialIndexMap ++ [gm.materialMap.size]) := by
  by_cases hmem : id ∈ gm.addedTypes
  · left
    have hd : decide (id ∈ gm.addedTypes) = true := decide_eq_true hmem
    unfold prepareGeometryOne at h
    simp only [hd, Bool.not_true, Bool.or_false, if_true] at h
    rw [Option.some.injEq] at h
    have hX := congrArg Prod.fst h
    simp only at hX
    refine ⟨hmem, ?_, ?_, ?_, ?_⟩ <;> rw [← hX] <;> cases na <;> rfl
  · right
    have hd : decide (id ∈ gm.addedTypes) = false := decide_eq_false hmem
    unfold prepareGeometryOne at h
    cases hsa : sharedAppends gm.addedMaterials ((vt.size : ℚ))⁻¹
        (gm.indices.size / 4) vt.voxels 0 with
    | none => simp [hd, hsa] at h
    | some tup =>
      obtain ⟨vs, is2, mm2, ns2⟩ := tup
      simp only [hd] at h
      simp [hsa] at h
      obtain ⟨h1, _⟩ := h
      rw [← h1]
      exact ⟨hmem, rfl, rfl, rfl, rfl⟩

/-- One ingestion step preserves the Geometry Store invariant. -/
theorem prepareGeometryOne_StoreWF (gm : GeometryManager) (na : Bool) (id : Nat)
    (vt : VoxelType) {gm2 : GeometryManager} {na2 : Bool}
    (h : prepareGeometryOne gm na id vt = some (gm2, na2)) (hwf : StoreWF gm) :
    StoreWF gm2 := by
  obtain ⟨⟨hl1, hl2⟩, hkeys, hbounds⟩ := hwf
  rcases prepareGeometryOne_cases gm na id vt h with ⟨_, e1, e2, e3, e4⟩ | ⟨hnew, e1, e2, e3, e4⟩
  · exact ⟨⟨by rw [e3, e1, hl1], by rw [e4, e1, hl2]⟩,
      by rw [e1, e2]; exact hkeys, by rw [e2, e3, e4]; exact hbounds⟩
  · refine ⟨⟨by rw [e3, e1]; simp [hl1], by rw [e4, e1]; simp [hl2]⟩, ?_, ?_⟩
    · intro id2 hid2
      rw [e1] at hid2
      rw [e2]
      rcases List.mem_append.mp hid2 with hold | hnewm
      · exact lookupA_insertA_isSome _ _ _ _ (hkeys id2 hold)
      · have : id2 = id := by simpa using hnewm
        subst this
        rw [lookupA_insertA_self]
        rfl
    · intro q hq
      rw [e2] at hq
      rw [e3, e4]
      rcases mem_insertA hq with hq1 | hq2
      · subst hq1
        constructor
        · simp [← hl1]
        · simp [← hl2]
      · obtain ⟨b1, b2⟩ := hbounds q hq2
        constructor
        · simp; omega
        · simp; omega

/-- One ingestion step can only extend the object map. -/
theorem prepareGeometryOne_objectMap_mono (gm : GeometryManager) (na : Bool) (id : Nat)
    (vt : VoxelType) {gm2 : GeometryManager} {na2 : Bool}
    (h : prepareGeometryOne gm na id vt = some (gm2, na2)) :
    ∀ k, (lookupA gm.objectMap k).isSome = true →
      (lookupA gm2.objectMap k).isSome = true := by
  intro k hk
  rcases prepareGeometryOne_cases gm na id vt h with ⟨_, _, e2, _, _⟩ | ⟨_, _, e2, _, _⟩
  · rw [e2]; exact hk
  · rw [e2]; exact lookupA_insertA_isSome _ _ _ _ hk

/-- One ingestion step can only extend the added-types list, and records its
own type. -/
theorem prepareGeometryOne_addedTypes (gm : GeometryManager) (na : Bool) (id : Nat)
    (vt : VoxelType) {gm2 : GeometryManager} {na2 : Bool}
    (h : prepareGeometryOne gm na id vt = some (gm2, na2)) :
    (∀ id2 ∈ gm.addedTypes, id2 ∈ gm2.addedTypes) ∧ id ∈ gm2.addedTypes := by
  rcases prepareGeometryOne_cases gm na id vt h with ⟨e0, e1, _, _, _⟩ | ⟨_, e1, _, _, _⟩
  · constructor
    · intro id2 hid2; rw [e1]; exact hid2
    · rw [e1]; exact e0
  · constructor
    · intro id2 hid2; rw [e1]; exact List.mem_append_left _ hid2
    · rw [e1]; exact List.mem_append_right _ (by simp)

/-- The ingestion loop preserves the invariant, extends the object map and
the added-types list monotonically, and records every extracted type. -/
theorem prepareGeometryGo_props : ∀ (ext : List (Nat × VoxelType))
    (gm : GeometryManager) (na : Bool) {gm2 : GeometryManager},
    prepareGeometryGo gm na ext = some gm2 →
    ((StoreWF gm → StoreWF gm2) ∧
     (∀ k, (lookupA gm.objectMap k).isSome = true →
        (lookupA gm2.objectMap k).isSome = true) ∧
     (∀ id2 ∈ gm.addedTypes, id2 ∈ gm2.addedTypes) ∧
     (∀ pr ∈ ext, pr.1 ∈ gm2.addedTypes)) := by
  intro ext
  induction ext with
  | nil =>
    intro gm na gm2 h
    simp only [prepareGeometryGo, Option.some.injEq] at h
    subst h
    exact ⟨fun hwf => hwf, fun _ hk => hk, fun _ hid => hid, by simp⟩
  | cons pr rest ih =>
    intro gm na gm2 h
    obtain ⟨id, vt⟩ := pr
    simp only [prepareGeometryGo] at h
    cases hone : prepareGeometryOne gm na id vt with
    | none => rw [hone] at h; simp at h
    | some pr2 =>
      obtain ⟨gm1, na1⟩ := pr2
      rw [hone] at h
      simp only at h
      obtain ⟨hwf1, hmono1, hadd1, hext1⟩ := ih gm1 na1 h
      refine ⟨fun hwf => hwf1 (prepareGeometryOne_StoreWF gm na id vt hone hwf),
        fun k hk => hmono1 k (prepareGeometryOne_objectMap_mono gm na id vt hone k hk),
        fun id2 hid2 =>
          hadd1 id2 ((prepareGeometryOne_addedTypes gm na id vt hone).1 id2 hid2), ?_⟩
      intro pr hpr
      rcases List.mem_cons.mp hpr with hh | ht
      · subst hh
        exact hadd1 _ (prepareGeometryOne_addedTypes gm na id vt hone).2
      · exact hext1 pr ht

/-- `prepare_geometry` preserves the Geometry Store invariant (the
per-type lookup removals touch none of the bookkeeping fields). -/
theorem prepareGeometry_StoreWF (gm : GeometryManager) (removed : List Nat)
    (extracted : List (Nat × VoxelType)) {gm2 : GeometryManager}
    (h : prepareGeometry gm removed extracted = some gm2) (hwf : StoreWF gm) :
    StoreWF gm2 :=
  (prepareGeometryGo_props extracted _ false h).1 hwf

/-- `prepare_materials` touches only the material store, hence preserves the
Geometry Store invariant. -/
theorem prepareMaterials_StoreWF (gm : GeometryManager)
    (extracted : List (Nat × VoxelMaterial)) (hwf : StoreWF gm) :
    StoreWF (prepareMaterials gm extracted) := by
  have hfields : ∀ (gm0 : GeometryManager) (na : Bool),
      (prepareMaterialsGo gm0 na extracted).1.addedTypes = gm0.addedTypes ∧
      (prepareMaterialsGo gm0 na extracted).1.objectMap = gm0.objectMap ∧
      (prepareMaterialsGo gm0 na extracted).1.indexMap = gm0.indexMap ∧
      (prepareMaterialsGo gm0 na extracted).1.materialIndexMap = gm0.materialIndexMap := by
    induction extracted with
    | nil => intro gm0 na; exact ⟨rfl, rfl, rfl, rfl⟩
    | cons pr rest ih =>
      intro gm0 na
      obtain ⟨id, m⟩ := pr
      simp only [prepareMaterialsGo]
      by_cases hmem : id ∈ gm0.addedMaterials
      · simpa [decide_eq_true hmem] using ih _ _
      · simpa [decide_eq_false hmem] using ih _ _
  obtain ⟨e1, e2, e3, e4⟩ := hfields gm false
  obtain ⟨⟨hl1, hl2⟩, hkeys, hbounds⟩ := hwf
  unfold prepareMaterials
  dsimp only
  split
  · exact ⟨⟨by simp [e3, e1, hl1], by simp [e4, e1, hl2]⟩,
      by simp only [e1, e2]; exact hkeys, by simp only [e2, e3, e4]; exact hbounds⟩
  · exact ⟨⟨by simp [e3, e1, hl1], by simp [e4, e1, hl2]⟩,
      by simp only [e1, e2]; exact hkeys, by simp only [e2, e3, e4]; exact hbounds⟩

theorem mem_foldl_removeA {β : Type} : ∀ (rs : List Nat) (m : List (Nat × β))
    (q : Nat × β), q ∈ rs.foldl removeA m → q ∈ m := by
  intro rs
  induction rs with
  | nil => intro m q h; exact h
  | cons r rs ih =>
    intro m q h
    exact List.mem_of_mem_filter (ih (removeA m r) q h)

/-- The BLAS build pass only installs BLAS entries for types the Geometry
Store has recorded, so after `prepare_geometry` and `prepare_blas` run over
the same extracted set (in their scheduled order), the cross-component
invariant `SysWF` holds again. -/
theorem frame_preserves_SysWF (bm : BlasManager) (gm : GeometryManager)
    (removed : List Nat) (extracted : List (Nat × VoxelType))
    {gm2 : GeometryManager} {bm2 : BlasManager}
    (hwf : SysWF bm gm) (hstore : StoreWF gm)
    (hgeo : prepareGeometry gm removed extracted = some gm2)
    (hblas : prepareBlas bm gm2 removed extracted = some bm2) :
    SysWF bm2 gm2 ∧ StoreWF gm2 := by
  obtain ⟨hprops1, hmono, _, hext⟩ := prepareGeometryGo_props extracted _ false hgeo
  have hstore2 : StoreWF gm2 := hprops1 hstore
  refine ⟨⟨?_, hstore2.2.2⟩, hstore2⟩
  -- every key of the new BLAS map has an object id in the new store
  have hgo : ∀ (ext : List (Nat × VoxelType)) (bmx : BlasManager) {bmy : BlasManager},
      prepareBlasGo gm2 bmx ext = some bmy →
      (∀ p ∈ bmx.blas, (lookupA gm2.objectMap p.1).isSome = true) →
      (∀ pr ∈ ext, (lookupA gm2.objectMap pr.1).isSome = true) →
      ∀ p ∈ bmy.blas, (lookupA gm2.objectMap p.1).isSome = true := by
    intro ext
    induction ext with
    | nil =>
      intro bmx bmy h hx _
      simp only [prepareBlasGo, Option.some.injEq] at h
      subst h
      exact hx
    | cons pr rest ih =>
      intro bmx bmy h hx hext2
      obtain ⟨id, vt⟩ := pr
      simp only [prepareBlasGo] at h
      cases hv : lookupA gm2.geometriesVertices id with
      | none => rw [hv] at h; simp at h
      | some vertices =>
        cases hi : lookupA gm2.geometriesIndices id with
        | none => rw [hv, hi] at h; simp at h
        | some indices2 =>
          rw [hv, hi] at h
          simp only at h
          refine ih _ h ?_ (fun pr hpr => hext2 pr (List.mem_cons_of_mem _ hpr))
          intro p hp
          rcases mem_insertA hp with hp1 | hp2
          · subst hp1
            exact hext2 (id, vt) (List.mem_cons_self _ _)
          · exact hx p hp2
  intro p hp
  refine hgo extracted _ hblas ?_ ?_ p hp
  · intro q hq
    have hq0 : q ∈ bm.blas := mem_foldl_removeA removed bm.blas q hq
    exact hmono q.1 (hwf.1 q hq0)
  · intro pr hpr
    exact hstore2.2.1 pr.1 (hext pr hpr)

end NEVR
